import Mathlib

/-!
# FragmentHeader (dataformats/FragmentHeader.hpp)

A shallow embedding of `include/dataformats/FragmentHeader.hpp`:

* the `FragmentHeader` aggregate and its default member initialisers,
* the `FragmentErrorBits` and `FragmentType` enumerations,
* the name table `s_fragment_type_names` (a `std::map`) and the two
  conversion helpers `fragment_type_to_string` / `string_to_fragment_type`,
* the stream inserter `operator<<` for a `FragmentHeader`.

`dataformats/Types.hpp` and `dataformats/GeoID.hpp` are not part of the
sources at hand, so the typedefs' default constants (`TypeDefaults`) and the
`GeoID` type with its text renderer are parameters of the development.
Unsigned machine integers are natural numbers, signed ones are integers; the
one place where the width matters (`m_error_bits`, 32 bits) reduces modulo
`2 ^ 32` explicitly.
-/

namespace dunedaq
namespace dataformats

/-! ## Types.hpp (parameters) -/

/-- The typedef `fragment_size_t` (unsigned). -/
abbrev fragment_size_t := Nat
/-- The typedef `trigger_number_t` (unsigned). -/
abbrev trigger_number_t := Nat
/-- The typedef `timestamp_t` (unsigned). -/
abbrev timestamp_t := Nat
/-- The typedef `timestamp_diff_t` (signed). -/
abbrev timestamp_diff_t := Int
/-- The typedef `run_number_t` (unsigned). -/
abbrev run_number_t := Nat
/-- The typedef `fragment_type_t` (unsigned), underlying type of `FragmentType`. -/
abbrev fragment_type_t := Nat

/-- The constants of `TypeDefaults` that `FragmentHeader` reads. `Types.hpp`
is not among the sources, so their values are a parameter. -/
structure TypeDefaults where
  s_invalid_fragment_size : fragment_size_t
  s_invalid_trigger_number : trigger_number_t
  s_invalid_timestamp : timestamp_t
  s_invalid_timestamp_diff : timestamp_diff_t
  s_invalid_run_number : run_number_t
  s_invalid_fragment_type : fragment_type_t
deriving DecidableEq, Repr

/-! ## struct FragmentHeader -/

/-- Magic bytes to identify a FragmentHeader entry in a raw data stream. -/
def s_fragment_header_magic : Nat := 0x11112222

/-- The current version of the Fragment. -/
def s_fragment_header_version : Nat := 1

/-- By default, all error bits are unset. -/
def s_default_error_bits : Nat := 0

/-- The aggregate `struct FragmentHeader`, fields in declaration order.
`GeoID` is the type of the embedded component identifier. -/
structure FragmentHeader (GeoID : Type) where
  m_fragment_header_marker : Nat
  m_version : Nat
  m_size : fragment_size_t
  m_trigger_number : trigger_number_t
  m_trigger_timestamp : timestamp_t
  m_window_offset : timestamp_diff_t
  m_window_width : timestamp_diff_t
  m_run_number : run_number_t
  m_link_id : GeoID
  m_error_bits : Nat
  m_fragment_type : fragment_type_t

/-- Default construction of a `FragmentHeader`: every member takes its default
member initialiser. `td` are the constants of `TypeDefaults`, `g` is the
default-constructed `GeoID`. -/
def FragmentHeader.default_constructed {GeoID : Type} (td : TypeDefaults) (g : GeoID) :
    FragmentHeader GeoID where
  m_fragment_header_marker := s_fragment_header_magic
  m_version := s_fragment_header_version
  m_size := td.s_invalid_fragment_size
  m_trigger_number := td.s_invalid_trigger_number
  m_trigger_timestamp := td.s_invalid_timestamp
  m_window_offset := td.s_invalid_timestamp_diff
  m_window_width := td.s_invalid_timestamp_diff
  m_run_number := td.s_invalid_run_number
  m_link_id := g
  m_error_bits := s_default_error_bits
  m_fragment_type := td.s_invalid_fragment_type

/-! ## enum class FragmentType and the name table -/

/-- The scoped enumeration `FragmentType : fragment_type_t`. A value of the
enumeration is any value of the underlying type; `val` is that value. -/
structure FragmentType where
  val : fragment_type_t
deriving DecidableEq, Repr

/-- The only enumerator, `kInvalid`; being first it has the value 0. -/
def FragmentType.kInvalid : FragmentType := ⟨0⟩

/-- A `std::map<FragmentType, std::string>`: the entries in iteration order,
which for `std::map` is strictly ascending key order (keys are unique). -/
structure NameTable where
  entries : List (FragmentType × String)
  ascending : entries.Pairwise (fun a b => a.1.val < b.1.val)

/-- The keys of the table, in iteration order. -/
def NameTable.keys (m : NameTable) : List FragmentType := m.entries.map Prod.fst

/-- The member `std::map::count`: the number of entries with key `k`. -/
def NameTable.count (m : NameTable) (k : FragmentType) : Nat :=
  (m.entries.filter (fun e => decide (e.1 = k))).length

/-- What a call can throw. -/
inductive Exception where
  | out_of_range
deriving DecidableEq, Repr

deriving instance DecidableEq for Except

/-- The member `std::map::at`: the mapped value of key `k`, or the exception
`std::out_of_range` when there is no such key. -/
def NameTable.at (m : NameTable) (k : FragmentType) : Except Exception String :=
  match m.entries.find? (fun e => decide (e.1 = k)) with
  | some e => Except.ok e.2
  | none => Except.error Exception.out_of_range

/-- The table as the header ships it: `s_fragment_type_names{}`. -/
def s_fragment_type_names : NameTable := ⟨[], List.Pairwise.nil⟩

/-- Convert a FragmentType enum value to string, over the table `tbl`. -/
def fragment_type_to_string (tbl : NameTable) (type : FragmentType) : Except Exception String :=
  if tbl.count type = 0 then
    Except.ok "INVALID"
  else
    tbl.at type

/-- The C library function `toupper` in the "C" locale: the letters a to z go
to A to Z, every other character is returned unchanged. -/
def toupper (c : Char) : Char :=
  if 'a' ≤ c ∧ c ≤ 'z' then Char.ofNat (c.toNat - 32) else c

/-- The call `std::transform(name.begin(), name.end(), name.begin(), toupper)`. -/
def transform_toupper (name : String) : String := String.mk (name.data.map toupper)

/-- The range-for loop of `string_to_fragment_type` over the remaining
entries `its`, with the fall-through `return FragmentType::kInvalid`. -/
def string_to_fragment_type_loop (its : List (FragmentType × String)) (name : String) :
    FragmentType :=
  match its with
  | [] => FragmentType.kInvalid
  | it :: rest => if it.2 = name then it.1 else string_to_fragment_type_loop rest name

/-- Convert a string to a FragmentType value, over the table `tbl`. -/
def string_to_fragment_type (tbl : NameTable) (name : String) : FragmentType :=
  string_to_fragment_type_loop tbl.entries (transform_toupper name)

/-! ## enum class FragmentErrorBits -/

/-- The scoped enumeration `FragmentErrorBits : size_t`, one constructor per
enumerator, in declaration order. -/
inductive FragmentErrorBits where
  | kDataNotFound
  | kIncomplete
  | kUnassigned2
  | kUnassigned3
  | kUnassigned4
  | kUnassigned5
  | kUnassigned6
  | kUnassigned7
  | kUnassigned8
  | kUnassigned9
  | kUnassigned10
  | kUnassigned11
  | kUnassigned12
  | kUnassigned13
  | kUnassigned14
  | kUnassigned15
  | kUnassigned16
  | kUnassigned17
  | kUnassigned18
  | kUnassigned19
  | kUnassigned20
  | kUnassigned21
  | kUnassigned22
  | kUnassigned23
  | kUnassigned24
  | kUnassigned25
  | kUnassigned26
  | kUnassigned27
  | kUnassigned28
  | kUnassigned29
  | kUnassigned30
  | kUnassigned31
  | kInvalid
deriving DecidableEq, Repr

/-- The value each enumerator of `FragmentErrorBits` is declared with. -/
def FragmentErrorBits.value : FragmentErrorBits → Nat
  | kDataNotFound => 0
  | kIncomplete => 1
  | kUnassigned2 => 2
  | kUnassigned3 => 3
  | kUnassigned4 => 4
  | kUnassigned5 => 5
  | kUnassigned6 => 6
  | kUnassigned7 => 7
  | kUnassigned8 => 8
  | kUnassigned9 => 9
  | kUnassigned10 => 10
  | kUnassigned11 => 11
  | kUnassigned12 => 12
  | kUnassigned13 => 13
  | kUnassigned14 => 14
  | kUnassigned15 => 15
  | kUnassigned16 => 16
  | kUnassigned17 => 17
  | kUnassigned18 => 18
  | kUnassigned19 => 19
  | kUnassigned20 => 20
  | kUnassigned21 => 21
  | kUnassigned22 => 22
  | kUnassigned23 => 23
  | kUnassigned24 => 24
  | kUnassigned25 => 25
  | kUnassigned26 => 26
  | kUnassigned27 => 27
  | kUnassigned28 => 28
  | kUnassigned29 => 29
  | kUnassigned30 => 30
  | kUnassigned31 => 31
  | kInvalid => 32

/-- The width in bits of the member `uint32_t m_error_bits`. -/
def error_bits_width : Nat := 32

/-- The statement `hdr.m_error_bits |= (1u << p)` on a header: the member is a
`uint32_t`, so the stored value is reduced modulo `2 ^ 32`. -/
def FragmentHeader.set_error_bit {GeoID : Type} (hdr : FragmentHeader GeoID) (p : Nat) :
    FragmentHeader GeoID :=
  { hdr with m_error_bits := (hdr.m_error_bits ||| (1 <<< p)) % 2 ^ error_bits_width }

/-- Reading bit `p` of `m_error_bits`: `(hdr.m_error_bits >> p) & 1u`. -/
def FragmentHeader.get_error_bit {GeoID : Type} (hdr : FragmentHeader GeoID) (p : Nat) : Bool :=
  (hdr.m_error_bits >>> p) &&& 1 != 0

/-! ## std::ostream and operator<< -/

/-- The `basefield` part of a stream's format flags. -/
inductive Basefield where
  | dec
  | hex
  | oct
deriving DecidableEq, Repr

/-- The radix a `basefield` setting selects. -/
def Basefield.radix : Basefield → Nat
  | dec => 10
  | hex => 16
  | oct => 8

/-- A `std::ostream` as far as the inserter observes it: the characters
written so far and the `basefield` flags. The other format flags are at their
defaults (no `showbase`, `uppercase`, `showpos`, width 0, classic locale), as
on a freshly constructed `std::ostringstream`. -/
structure ostream where
  buf : String
  basefield : Basefield
deriving DecidableEq, Repr

/-- A freshly constructed `std::ostringstream`. -/
def ostringstream : ostream := ⟨"", Basefield.dec⟩

/-- The manipulator `std::hex`. -/
def ostream.hex (o : ostream) : ostream := { o with basefield := Basefield.hex }

/-- The manipulator `std::dec`. -/
def ostream.dec (o : ostream) : ostream := { o with basefield := Basefield.dec }

/-- Inserting a string literal or `std::string`. -/
def ostream.put_string (o : ostream) (s : String) : ostream := { o with buf := o.buf ++ s }

/-- The digits of an unsigned value in the stream's radix (lowercase, no
prefix, no padding). -/
def unsigned_text (b : Basefield) (n : Nat) : String := String.mk (Nat.toDigits b.radix n)

/-- The text of a signed value: in decimal the digits of the magnitude after
a minus sign for a negative value; in the other bases the digits of the
two's complement bit pattern. Only `timestamp_diff_t` values are inserted as
signed; its width is not fixed by the sources at hand and 64 bits are taken
for the non-decimal bases, which the header inserter never uses for signed
members. -/
def signed_text (b : Basefield) (i : Int) : String :=
  match b with
  | Basefield.dec => if i < 0 then "-" ++ unsigned_text Basefield.dec i.natAbs
                     else unsigned_text Basefield.dec i.natAbs
  | _ => unsigned_text b (i % 2 ^ 64).toNat

/-- Inserting an unsigned integer. -/
def ostream.put_unsigned (o : ostream) (n : Nat) : ostream :=
  { o with buf := o.buf ++ unsigned_text o.basefield n }

/-- Inserting a signed integer. -/
def ostream.put_signed (o : ostream) (i : Int) : ostream :=
  { o with buf := o.buf ++ signed_text o.basefield i }

/-- Stream a Fragment Header in human-readable form: `operator<<(std::ostream&,
FragmentHeader const&)`. `GeoID.hpp` is not among the sources, so the inserter
of the member `m_link_id` is the parameter `link_id_text`, the text that
`o << hdr.m_link_id` appends (it leaves the format flags as they are). -/
def operator_lshift {GeoID : Type} (link_id_text : GeoID → String) (o : ostream)
    (hdr : FragmentHeader GeoID) : ostream :=
  o |>.put_string "check_word: " |>.hex |>.put_unsigned hdr.m_fragment_header_marker
    |>.dec |>.put_string ", "
    |>.put_string "version: " |>.put_unsigned hdr.m_version |>.put_string ", "
    |>.put_string "size: " |>.put_unsigned hdr.m_size |>.put_string ", "
    |>.put_string "trigger_number: " |>.put_unsigned hdr.m_trigger_number |>.put_string ", "
    |>.put_string "run_number: " |>.put_unsigned hdr.m_run_number |>.put_string ", "
    |>.put_string "trigger_timestamp: " |>.put_unsigned hdr.m_trigger_timestamp
    |>.put_string ", "
    |>.put_string "window_offset: " |>.put_signed hdr.m_window_offset |>.put_string ", "
    |>.put_string "window_width: " |>.put_signed hdr.m_window_width |>.put_string ", "
    |>.put_string "link_id: " |>.put_string (link_id_text hdr.m_link_id) |>.put_string ", "
    |>.put_string "error_bits: " |>.put_unsigned hdr.m_error_bits |>.put_string ", "
    |>.put_string "fragment_type : " |>.put_unsigned hdr.m_fragment_type

/-- The text a header renders to: what `ostr.str()` holds after
`ostr << hdr` on a fresh `std::ostringstream ostr`. -/
def FragmentHeader.text {GeoID : Type} (link_id_text : GeoID → String)
    (hdr : FragmentHeader GeoID) : String :=
  (operator_lshift link_id_text ostringstream hdr).buf

/-- The text `sub` occurs in the text `s` (what `s.find(sub) != npos` tests). -/
def contains_text (s sub : String) : Prop := sub.data <:+: s.data

instance (s sub : String) : Decidable (contains_text s sub) := by
  unfold contains_text; infer_instance

/-- The strings `s` and `n` differ only in letter case: they have the same
length and agree character by character once case is folded. -/
def differs_only_in_case (s n : String) : Prop :=
  s.data.map toupper = n.data.map toupper

instance (s n : String) : Decidable (differs_only_in_case s n) := by
  unfold differs_only_in_case; infer_instance

/-- The rendering as the specification words it, to be compared with
`FragmentHeader.text`: eleven items separated by ", ", each a key immediately
followed by a colon, one space and the value, in the order marker, version,
size, trigger_number, run_number, trigger_timestamp, window_offset,
window_width, link_id, error_bits, fragment_type. The keys are spelled as the
inserter spells them. -/
def FragmentHeader.spec_text {GeoID : Type} (link_id_text : GeoID → String)
    (hdr : FragmentHeader GeoID) : String :=
  ", ".intercalate
    [ "check_word" ++ ": " ++ unsigned_text Basefield.hex hdr.m_fragment_header_marker,
      "version" ++ ": " ++ Nat.repr hdr.m_version,
      "size" ++ ": " ++ Nat.repr hdr.m_size,
      "trigger_number" ++ ": " ++ Nat.repr hdr.m_trigger_number,
      "run_number" ++ ": " ++ Nat.repr hdr.m_run_number,
      "trigger_timestamp" ++ ": " ++ Nat.repr hdr.m_trigger_timestamp,
      "window_offset" ++ ": " ++ signed_text Basefield.dec hdr.m_window_offset,
      "window_width" ++ ": " ++ signed_text Basefield.dec hdr.m_window_width,
      "link_id" ++ ": " ++ link_id_text hdr.m_link_id,
      "error_bits" ++ ": " ++ Nat.repr hdr.m_error_bits,
      "fragment_type" ++ ": " ++ Nat.repr hdr.m_fragment_type ]

/-! ## Sample data -/

/-- Stand-in values for the constants of `TypeDefaults`. -/
def sample_defaults : TypeDefaults :=
  { s_invalid_fragment_size := 0
    s_invalid_trigger_number := 0
    s_invalid_timestamp := 0
    s_invalid_timestamp_diff := 0
    s_invalid_run_number := 0
    s_invalid_fragment_type := 7 }

/-- A stand-in for the `GeoID` inserter, over a one-value identifier type. -/
def sample_link_id_text : Unit → String := fun _ => "GeoID"

/-- The header of the unit test's scenario: default-constructed, then
trigger number 1, trigger timestamp 2 and run number 3 assigned. -/
def sample_header : FragmentHeader Unit :=
  { FragmentHeader.default_constructed sample_defaults () with
    m_trigger_number := 1
    m_trigger_timestamp := 2
    m_run_number := 3 }

/-- A table with a name that is not all uppercase. -/
def mixed_case_names : NameTable :=
  ⟨[(⟨1⟩, "Tpc")], by decide⟩


/-- A populated name table, as an integrator extending `FragmentType` would
register it. -/
def sample_names : NameTable :=
  ⟨[(⟨1⟩, "TPC"), (⟨2⟩, "PDS"), (⟨4⟩, "TPC")], by decide⟩

/-- The member `std::map::insert` on the entries: the new entry goes to its
place in key order; when the key is already present the table is unchanged. -/
def insert_entry (e : FragmentType × String) :
    List (FragmentType × String) → List (FragmentType × String)
  | [] => [e]
  | x :: rest =>
    if e.1.val < x.1.val then e :: x :: rest
    else if x.1.val < e.1.val then x :: insert_entry e rest
    else x :: rest

/-- A table that registers the name "TPC" for tag 4 first and for tag 1
second. -/
def registered_4_then_1 : NameTable :=
  ⟨insert_entry (⟨1⟩, "TPC") (insert_entry (⟨4⟩, "TPC") []), by decide⟩

/-- A table that registers the name "TPC" for tag 1 first and for tag 4
second. -/
def registered_1_then_4 : NameTable :=
  ⟨insert_entry (⟨4⟩, "TPC") (insert_entry (⟨1⟩, "TPC") []), by decide⟩

/-- A table whose names are all uppercase and pairwise distinct. -/
def distinct_names : NameTable :=
  ⟨[(⟨1⟩, "TPC"), (⟨2⟩, "PDS"), (⟨5⟩, "TRIGGER")], by decide⟩

/-- A header whose numeric members all hold 255, the window offset -255. -/
def all_255_header : FragmentHeader Unit :=
  { m_fragment_header_marker := 255
    m_version := 255
    m_size := 255
    m_trigger_number := 255
    m_trigger_timestamp := 255
    m_window_offset := -255
    m_window_width := 255
    m_run_number := 255
    m_link_id := ()
    m_error_bits := 255
    m_fragment_type := 255 }

/-- The characters a lowercase base-16 rendering is made of. -/
def hex_digit_chars : List Char := "0123456789abcdef".data

/-! ## The name table -/

theorem NameTable.count_eq_zero_iff (tbl : NameTable) (k : FragmentType) :
    tbl.count k = 0 ↔ k ∉ tbl.keys := by
  unfold NameTable.count NameTable.keys
  rw [List.length_eq_zero, List.filter_eq_nil_iff]
  simp only [decide_eq_true_eq, List.mem_map, not_exists, not_and]

theorem find_of_mem_ascending (l : List (FragmentType × String))
    (hl : l.Pairwise (fun a b => a.1.val < b.1.val)) (k : FragmentType) (n : String)
    (h : (k, n) ∈ l) : l.find? (fun e => decide (e.1 = k)) = some (k, n) := by
  induction l with
  | nil => simp at h
  | cons e rest ih =>
    rw [List.pairwise_cons] at hl
    rcases List.mem_cons.mp h with h0 | h1
    · subst h0
      simp
    · have hlt := hl.1 (k, n) h1
      have hne : ¬ e.1 = k := by
        intro he
        rw [he] at hlt
        exact Nat.lt_irrefl _ hlt
      rw [List.find?_cons_of_neg]
      · exact ih hl.2 h1
      · simpa using hne

theorem NameTable.at_of_mem (tbl : NameTable) (k : FragmentType) (n : String)
    (h : (k, n) ∈ tbl.entries) : tbl.at k = Except.ok n := by
  unfold NameTable.at
  rw [find_of_mem_ascending tbl.entries tbl.ascending k n h]

theorem string_to_fragment_type_loop_none (l : List (FragmentType × String)) (name : String)
    (h : ∀ e ∈ l, e.2 ≠ name) : string_to_fragment_type_loop l name = FragmentType.kInvalid := by
  induction l with
  | nil => rfl
  | cons e rest ih =>
    unfold string_to_fragment_type_loop
    rw [if_neg (h e (List.mem_cons_self _ _))]
    exact ih (fun x hx => h x (List.mem_cons_of_mem _ hx))

theorem string_to_fragment_type_loop_first (pre : List (FragmentType × String))
    (it : FragmentType × String) (post : List (FragmentType × String)) (name : String)
    (hpre : ∀ e ∈ pre, e.2 ≠ name) (hit : it.2 = name) :
    string_to_fragment_type_loop (pre ++ it :: post) name = it.1 := by
  induction pre with
  | nil =>
    simp only [List.nil_append]
    unfold string_to_fragment_type_loop
    rw [if_pos hit]
  | cons e rest ih =>
    simp only [List.cons_append]
    unfold string_to_fragment_type_loop
    rw [if_neg (hpre e (List.mem_cons_self _ _))]
    exact ih (fun x hx => hpre x (List.mem_cons_of_mem _ hx))

/-! ## Claims -/

/-- C1: every default-constructed FragmentHeader has `m_fragment_header_marker`
equal to the magic constant 0x11112222 and `m_version` equal to the current
version 1, whatever the constants of `TypeDefaults` and the default `GeoID`. -/
theorem default_constructed_marker_and_version {GeoID : Type} (td : TypeDefaults) (g : GeoID) :
    (FragmentHeader.default_constructed td g).m_fragment_header_marker = 0x11112222 ∧
    (FragmentHeader.default_constructed td g).m_version = 1 :=
  ⟨rfl, rfl⟩

/-- C2: for every name table and every FragmentType value `t`,
`fragment_type_to_string` returns exactly "INVALID" when `t` is not a key of
the table, returns the name stored for `t` when `t` is a key, and never
throws (the `at` call is only reached for a key that is present). -/
theorem fragment_type_to_string_spec (tbl : NameTable) (t : FragmentType) :
    (t ∉ tbl.keys → fragment_type_to_string tbl t = Except.ok "INVALID") ∧
    (∀ n, (t, n) ∈ tbl.entries → fragment_type_to_string tbl t = Except.ok n) ∧
    (∃ s, fragment_type_to_string tbl t = Except.ok s) := by
  have hin : ∀ n, (t, n) ∈ tbl.entries → fragment_type_to_string tbl t = Except.ok n := by
    intro n hn
    have hk : t ∈ tbl.keys := List.mem_map.mpr ⟨(t, n), hn, rfl⟩
    unfold fragment_type_to_string
    rw [if_neg (fun h0 => (tbl.count_eq_zero_iff t).mp h0 hk)]
    exact tbl.at_of_mem t n hn
  have hout : t ∉ tbl.keys → fragment_type_to_string tbl t = Except.ok "INVALID" := by
    intro hk
    unfold fragment_type_to_string
    rw [if_pos ((tbl.count_eq_zero_iff t).mpr hk)]
  refine ⟨hout, hin, ?_⟩
  by_cases hk : t ∈ tbl.keys
  · obtain ⟨e, he, rfl⟩ := List.mem_map.mp hk
    exact ⟨e.2, hin e.2 he⟩
  · exact ⟨"INVALID", hout hk⟩

/-- C2 at the sample table: tag 3 is not registered and gives "INVALID", tag 2
is registered and gives its name "PDS". -/
theorem fragment_type_to_string_spec_witness :
    fragment_type_to_string sample_names ⟨3⟩ = Except.ok "INVALID" ∧
    fragment_type_to_string sample_names ⟨2⟩ = Except.ok "PDS" :=
  ⟨(fragment_type_to_string_spec sample_names ⟨3⟩).1 (by decide),
   (fragment_type_to_string_spec sample_names ⟨2⟩).2.1 "PDS" (by decide)⟩

/-- C3: for every name table and every input string `s`,
`string_to_fragment_type` returns `FragmentType::kInvalid` when no entry's
name equals the uppercased `s`, and otherwise the key of the first entry in
iteration order whose name equals the uppercased `s`. It is a total function
with no throwing call, so it never fails. -/
theorem string_to_fragment_type_spec (tbl : NameTable) (s : String) :
    ((∀ e ∈ tbl.entries, e.2 ≠ transform_toupper s) →
      string_to_fragment_type tbl s = FragmentType.kInvalid) ∧
    (∀ pre it post, tbl.entries = pre ++ it :: post →
      (∀ e ∈ pre, e.2 ≠ transform_toupper s) → it.2 = transform_toupper s →
      string_to_fragment_type tbl s = it.1) := by
  constructor
  · intro h
    exact string_to_fragment_type_loop_none tbl.entries _ h
  · intro pre it post hsplit hpre hit
    unfold string_to_fragment_type
    rw [hsplit]
    exact string_to_fragment_type_loop_first pre it post _ hpre hit

/-- C3 at the sample table: "nonexistent" names no entry and gives `kInvalid`;
"tpc" names the entries with keys 1 and 4 and gives the first, key 1. -/
theorem string_to_fragment_type_spec_witness :
    string_to_fragment_type sample_names "nonexistent" = FragmentType.kInvalid ∧
    string_to_fragment_type sample_names "tpc" = ⟨1⟩ :=
  ⟨(string_to_fragment_type_spec sample_names "nonexistent").1 (by decide),
   (string_to_fragment_type_spec sample_names "tpc").2 [] (⟨1⟩, "TPC")
     [(⟨2⟩, "PDS"), (⟨4⟩, "TPC")] rfl (by decide) (by decide)⟩

theorem string_to_fragment_type_loop_mem (l : List (FragmentType × String)) (name : String)
    (h : ∃ e ∈ l, e.2 = name) : (string_to_fragment_type_loop l name, name) ∈ l := by
  induction l with
  | nil => simp at h
  | cons e rest ih =>
    unfold string_to_fragment_type_loop
    by_cases he : e.2 = name
    · rw [if_pos he]
      have : (e.1, name) = e := by rw [← he]
      rw [this]
      exact List.mem_cons_self _ _
    · rw [if_neg he]
      obtain ⟨x, hx, hxn⟩ := h
      rcases List.mem_cons.mp hx with h0 | h1
      · exact absurd (h0 ▸ hxn) he
      · exact List.mem_cons_of_mem _ (ih ⟨x, h1, hxn⟩)

theorem transform_toupper_eq_of_differs (s n : String) (hupper : transform_toupper n = n)
    (hs : differs_only_in_case s n) : transform_toupper s = n := by
  unfold differs_only_in_case at hs
  unfold transform_toupper at hupper ⊢
  rw [hs]
  exact hupper

/-- C4, counterexample: the table registers tag 1 under the name "Tpc"; the
input "tpc" differs from that name only in letter case, yet the result is the
fallback `kInvalid`, a tag that has no name in the table. -/
theorem string_to_fragment_type_mixed_case_not_found :
    ((⟨1⟩, "Tpc") : FragmentType × String) ∈ mixed_case_names.entries ∧
    differs_only_in_case "tpc" "Tpc" ∧
    string_to_fragment_type mixed_case_names "tpc" = FragmentType.kInvalid ∧
    fragment_type_to_string mixed_case_names (string_to_fragment_type mixed_case_names "tpc")
      = Except.ok "INVALID" := by
  decide

/-- C4, amended: for every name table, every entry `(t, n)` of it whose name
`n` is all uppercase (unchanged by `toupper`) and every string `s` that
differs from `n` only in letter case, `string_to_fragment_type` returns a key
of the table whose name is `n`; the result is the sentinel `kInvalid` only
when the sentinel is itself a key of the table. -/
theorem string_to_fragment_type_case_insensitive (tbl : NameTable) (t : FragmentType)
    (n s : String) (hmem : (t, n) ∈ tbl.entries) (hupper : transform_toupper n = n)
    (hs : differs_only_in_case s n) :
    (string_to_fragment_type tbl s, n) ∈ tbl.entries ∧
    fragment_type_to_string tbl (string_to_fragment_type tbl s) = Except.ok n ∧
    (FragmentType.kInvalid ∉ tbl.keys → string_to_fragment_type tbl s ≠ FragmentType.kInvalid) := by
  have hname : transform_toupper s = n := transform_toupper_eq_of_differs s n hupper hs
  have hres : (string_to_fragment_type tbl s, n) ∈ tbl.entries := by
    unfold string_to_fragment_type
    rw [hname]
    exact string_to_fragment_type_loop_mem tbl.entries n ⟨(t, n), hmem, rfl⟩
  have hkey : string_to_fragment_type tbl s ∈ tbl.keys := List.mem_map.mpr ⟨_, hres, rfl⟩
  refine ⟨hres, ?_, ?_⟩
  · unfold fragment_type_to_string
    rw [if_neg (fun h0 => (tbl.count_eq_zero_iff _).mp h0 hkey)]
    exact tbl.at_of_mem _ n hres
  · intro hinv heq
    rw [heq] at hkey
    exact hinv hkey

/-- C4, amended, at the sample table: "pDs" differs only in case from the
registered uppercase name "PDS" and is resolved to a key named "PDS". -/
theorem string_to_fragment_type_case_insensitive_witness :
    (string_to_fragment_type sample_names "pDs", "PDS") ∈ sample_names.entries ∧
    fragment_type_to_string sample_names (string_to_fragment_type sample_names "pDs")
      = Except.ok "PDS" ∧
    (FragmentType.kInvalid ∉ sample_names.keys →
      string_to_fragment_type sample_names "pDs" ≠ FragmentType.kInvalid) :=
  string_to_fragment_type_case_insensitive sample_names ⟨2⟩ "PDS" "pDs"
    (by decide) (by decide) (by decide)

/-! ## The stream inserter -/

theorem unsigned_text_dec (n : Nat) : unsigned_text Basefield.dec n = Nat.repr n := rfl

theorem operator_lshift_buf {GeoID : Type} (f : GeoID → String) (o : ostream)
    (hdr : FragmentHeader GeoID) :
    (operator_lshift f o hdr).buf =
      o.buf ++ "check_word: " ++ unsigned_text Basefield.hex hdr.m_fragment_header_marker ++ ", "
        ++ "version: " ++ Nat.repr hdr.m_version ++ ", "
        ++ "size: " ++ Nat.repr hdr.m_size ++ ", "
        ++ "trigger_number: " ++ Nat.repr hdr.m_trigger_number ++ ", "
        ++ "run_number: " ++ Nat.repr hdr.m_run_number ++ ", "
        ++ "trigger_timestamp: " ++ Nat.repr hdr.m_trigger_timestamp ++ ", "
        ++ "window_offset: " ++ signed_text Basefield.dec hdr.m_window_offset ++ ", "
        ++ "window_width: " ++ signed_text Basefield.dec hdr.m_window_width ++ ", "
        ++ "link_id: " ++ f hdr.m_link_id ++ ", "
        ++ "error_bits: " ++ Nat.repr hdr.m_error_bits ++ ", "
        ++ "fragment_type : " ++ Nat.repr hdr.m_fragment_type :=
  rfl

theorem contains_text_append_right (s z sub : String) (h : contains_text s sub) :
    contains_text (s ++ z) sub := by
  unfold contains_text at h ⊢
  rw [String.data_append]
  exact List.IsInfix.trans h (List.infix_append' [] s.data z.data)

theorem contains_text_item (x k v : String) :
    contains_text (x ++ k ++ v ++ ", ") (k ++ v ++ ",") := by
  unfold contains_text
  refine ⟨x.data, [' '], ?_⟩
  have hc : (", " : String).data = [',', ' '] := rfl
  have hd : ("," : String).data = [','] := rfl
  simp only [String.data_append, hc, hd, List.append_assoc, List.singleton_append]

/-- C5: for every header (and every stream it is inserted into), the text
produced by `operator<<` contains "trigger_number: <n>,", "trigger_timestamp:
<t>," and "run_number: <r>," with the decimal renderings of the header's
trigger number, trigger timestamp and run number; with the values 1, 2 and 3
these are "trigger_number: 1,", "trigger_timestamp: 2," and "run_number: 3,". -/
theorem operator_lshift_contains_trigger_and_run {GeoID : Type} (f : GeoID → String)
    (o : ostream) (hdr : FragmentHeader GeoID) :
    (contains_text (operator_lshift f o hdr).buf
        ("trigger_number: " ++ Nat.repr hdr.m_trigger_number ++ ",") ∧
      contains_text (operator_lshift f o hdr).buf
        ("trigger_timestamp: " ++ Nat.repr hdr.m_trigger_timestamp ++ ",") ∧
      contains_text (operator_lshift f o hdr).buf
        ("run_number: " ++ Nat.repr hdr.m_run_number ++ ",")) ∧
    (hdr.m_trigger_number = 1 → hdr.m_trigger_timestamp = 2 → hdr.m_run_number = 3 →
      contains_text (operator_lshift f o hdr).buf "trigger_number: 1," ∧
      contains_text (operator_lshift f o hdr).buf "trigger_timestamp: 2," ∧
      contains_text (operator_lshift f o hdr).buf "run_number: 3,") := by
  have h1 : contains_text (operator_lshift f o hdr).buf
      ("trigger_number: " ++ Nat.repr hdr.m_trigger_number ++ ",") := by
    rw [operator_lshift_buf]
    iterate 20 apply contains_text_append_right
    exact contains_text_item _ _ _
  have h2 : contains_text (operator_lshift f o hdr).buf
      ("trigger_timestamp: " ++ Nat.repr hdr.m_trigger_timestamp ++ ",") := by
    rw [operator_lshift_buf]
    iterate 14 apply contains_text_append_right
    exact contains_text_item _ _ _
  have h3 : contains_text (operator_lshift f o hdr).buf
      ("run_number: " ++ Nat.repr hdr.m_run_number ++ ",") := by
    rw [operator_lshift_buf]
    iterate 17 apply contains_text_append_right
    exact contains_text_item _ _ _
  refine ⟨⟨h1, h2, h3⟩, ?_⟩
  intro e1 e2 e3
  rw [e1] at h1
  rw [e2] at h2
  rw [e3] at h3
  exact ⟨h1, h2, h3⟩

/-- C5 at the unit test's scenario: with trigger number 1, trigger timestamp 2
and run number 3 the rendered text contains the three literal substrings. -/
theorem operator_lshift_contains_trigger_and_run_witness :
    contains_text (sample_header.text sample_link_id_text) "trigger_number: 1," ∧
    contains_text (sample_header.text sample_link_id_text) "trigger_timestamp: 2," ∧
    contains_text (sample_header.text sample_link_id_text) "run_number: 3," :=
  (operator_lshift_contains_trigger_and_run sample_link_id_text ostringstream sample_header).2
    rfl rfl rfl

theorem spec_text_eq {GeoID : Type} (f : GeoID → String) (hdr : FragmentHeader GeoID) :
    hdr.spec_text f =
      "check_word" ++ ": " ++ unsigned_text Basefield.hex hdr.m_fragment_header_marker ++ ", "
        ++ "version" ++ ": " ++ Nat.repr hdr.m_version ++ ", "
        ++ "size" ++ ": " ++ Nat.repr hdr.m_size ++ ", "
        ++ "trigger_number" ++ ": " ++ Nat.repr hdr.m_trigger_number ++ ", "
        ++ "run_number" ++ ": " ++ Nat.repr hdr.m_run_number ++ ", "
        ++ "trigger_timestamp" ++ ": " ++ Nat.repr hdr.m_trigger_timestamp ++ ", "
        ++ "window_offset" ++ ": " ++ signed_text Basefield.dec hdr.m_window_offset ++ ", "
        ++ "window_width" ++ ": " ++ signed_text Basefield.dec hdr.m_window_width ++ ", "
        ++ "link_id" ++ ": " ++ f hdr.m_link_id ++ ", "
        ++ "error_bits" ++ ": " ++ Nat.repr hdr.m_error_bits ++ ", "
        ++ "fragment_type" ++ ": " ++ Nat.repr hdr.m_fragment_type := by
  simp only [FragmentHeader.spec_text, String.intercalate, String.intercalate.go,
    String.append_assoc]

/-- For every header the inserter and the specified format agree up to the
last key, where the inserter writes "fragment_type : " (a space before the
colon) and the format has "fragment_type: "; the two texts differ. -/
theorem text_ne_spec_text {GeoID : Type} (f : GeoID → String) (hdr : FragmentHeader GeoID) :
    ∃ pre : String,
      hdr.text f = pre ++ "fragment_type : " ++ Nat.repr hdr.m_fragment_type ∧
      hdr.spec_text f = pre ++ "fragment_type: " ++ Nat.repr hdr.m_fragment_type ∧
      hdr.text f ≠ hdr.spec_text f := by
  have ht : hdr.text f = (operator_lshift f ostringstream hdr).buf := rfl
  have h1 := ht.trans (operator_lshift_buf f ostringstream hdr)
  have key : ∃ pre : String,
      hdr.text f = pre ++ "fragment_type : " ++ Nat.repr hdr.m_fragment_type ∧
      hdr.spec_text f = pre ++ "fragment_type: " ++ Nat.repr hdr.m_fragment_type := by
    refine ⟨_, h1, ?_⟩
    rw [spec_text_eq f hdr]
    have e0 : ostringstream.buf = "" := rfl
    simp only [e0, String.append_assoc]
    rfl
  obtain ⟨pre, ha, hb⟩ := key
  refine ⟨pre, ha, hb, ?_⟩
  rw [ha, hb]
  intro heq
  have hd := congrArg String.data heq
  simp only [String.data_append] at hd
  have hk := List.append_cancel_left (List.append_cancel_right hd)
  exact absurd hk (by decide)

/-- C6, the inserter at the unit test's header: the rendered text has ten
items of the form `key: value` and then "fragment_type : 7", whose key is
followed by a space before the colon; the text in the specified format ends
"fragment_type: 7", and the two differ. -/
theorem sample_header_text_fragment_type_label :
    sample_header.text sample_link_id_text =
      "check_word: 11112222, version: 1, size: 0, trigger_number: 1, run_number: 3, trigger_timestamp: 2, window_offset: 0, window_width: 0, link_id: GeoID, error_bits: 0, fragment_type : 7" ∧
    sample_header.spec_text sample_link_id_text =
      "check_word: 11112222, version: 1, size: 0, trigger_number: 1, run_number: 3, trigger_timestamp: 2, window_offset: 0, window_width: 0, link_id: GeoID, error_bits: 0, fragment_type: 7" ∧
    sample_header.text sample_link_id_text ≠ sample_header.spec_text sample_link_id_text := by
  refine ⟨rfl, rfl, ?_⟩
  obtain ⟨_, _, _, hne⟩ := text_ne_spec_text sample_link_id_text sample_header
  exact hne

/-- C7: `FragmentErrorBits` enumerates exactly the positions 0 through 32:
`kDataNotFound` is 0, `kIncomplete` is 1, `kUnassigned<n>` is `n` for every
`n` from 2 to 31 and `kInvalid` is 32; distinct enumerators have distinct
values; every enumerator other than `kInvalid` is a bit position of the
32-bit `m_error_bits` (value below 32, mask `2 ^ value` below `2 ^ 32`), and
`kInvalid` equals the width of that member, the first position whose mask
`2 ^ 32` does not fit in it. -/
theorem FragmentErrorBits_positions :
    FragmentErrorBits.kDataNotFound.value = 0 ∧
    FragmentErrorBits.kIncomplete.value = 1 ∧
    (FragmentErrorBits.kUnassigned2.value = 2 ∧
    FragmentErrorBits.kUnassigned3.value = 3 ∧
    FragmentErrorBits.kUnassigned4.value = 4 ∧
    FragmentErrorBits.kUnassigned5.value = 5 ∧
    FragmentErrorBits.kUnassigned6.value = 6 ∧
    FragmentErrorBits.kUnassigned7.value = 7 ∧
    FragmentErrorBits.kUnassigned8.value = 8 ∧
    FragmentErrorBits.kUnassigned9.value = 9 ∧
    FragmentErrorBits.kUnassigned10.value = 10 ∧
    FragmentErrorBits.kUnassigned11.value = 11 ∧
    FragmentErrorBits.kUnassigned12.value = 12 ∧
    FragmentErrorBits.kUnassigned13.value = 13 ∧
    FragmentErrorBits.kUnassigned14.value = 14 ∧
    FragmentErrorBits.kUnassigned15.value = 15 ∧
    FragmentErrorBits.kUnassigned16.value = 16 ∧
    FragmentErrorBits.kUnassigned17.value = 17 ∧
    FragmentErrorBits.kUnassigned18.value = 18 ∧
    FragmentErrorBits.kUnassigned19.value = 19 ∧
    FragmentErrorBits.kUnassigned20.value = 20 ∧
    FragmentErrorBits.kUnassigned21.value = 21 ∧
    FragmentErrorBits.kUnassigned22.value = 22 ∧
    FragmentErrorBits.kUnassigned23.value = 23 ∧
    FragmentErrorBits.kUnassigned24.value = 24 ∧
    FragmentErrorBits.kUnassigned25.value = 25 ∧
    FragmentErrorBits.kUnassigned26.value = 26 ∧
    FragmentErrorBits.kUnassigned27.value = 27 ∧
    FragmentErrorBits.kUnassigned28.value = 28 ∧
    FragmentErrorBits.kUnassigned29.value = 29 ∧
    FragmentErrorBits.kUnassigned30.value = 30 ∧
    FragmentErrorBits.kUnassigned31.value = 31) ∧
    FragmentErrorBits.kInvalid.value = 32 ∧
    (∀ n : Nat, (∃ e : FragmentErrorBits, e.value = n) ↔ n ≤ 32) ∧
    Function.Injective FragmentErrorBits.value ∧
    (∀ e : FragmentErrorBits, e ≠ FragmentErrorBits.kInvalid →
      e.value < error_bits_width ∧ 2 ^ e.value < 2 ^ error_bits_width) ∧
    FragmentErrorBits.kInvalid.value = error_bits_width ∧
    ¬ (2 ^ FragmentErrorBits.kInvalid.value < 2 ^ error_bits_width) ∧
    (∀ p : Nat, p < FragmentErrorBits.kInvalid.value → 2 ^ p < 2 ^ error_bits_width) := by
  refine ⟨rfl, rfl, by decide, rfl, ?_, ?_, ?_, rfl, by decide, ?_⟩
  · intro n
    constructor
    · rintro ⟨e, rfl⟩
      cases e <;> decide
    · intro hn
      interval_cases n
      all_goals first
        | exact ⟨FragmentErrorBits.kDataNotFound, rfl⟩
        | exact ⟨FragmentErrorBits.kIncomplete, rfl⟩
        | exact ⟨FragmentErrorBits.kInvalid, rfl⟩
        | exact ⟨FragmentErrorBits.kUnassigned2, rfl⟩
        | exact ⟨FragmentErrorBits.kUnassigned3, rfl⟩
        | exact ⟨FragmentErrorBits.kUnassigned4, rfl⟩
        | exact ⟨FragmentErrorBits.kUnassigned5, rfl⟩
        | exact ⟨FragmentErrorBits.kUnassigned6, rfl⟩
        | exact ⟨FragmentErrorBits.kUnassigned7, rfl⟩
        | exact ⟨FragmentErrorBits.kUnassigned8, rfl⟩
        | exact ⟨FragmentErrorBits.kUnassigned9, rfl⟩
        | exact ⟨FragmentErrorBits.kUnassigned10, rfl⟩
        | exact ⟨FragmentErrorBits.kUnassigned11, rfl⟩
        | exact ⟨FragmentErrorBits.kUnassigned12, rfl⟩
        | exact ⟨FragmentErrorBits.kUnassigned13, rfl⟩
        | exact ⟨FragmentErrorBits.kUnassigned14, rfl⟩
        | exact ⟨FragmentErrorBits.kUnassigned15, rfl⟩
        | exact ⟨FragmentErrorBits.kUnassigned16, rfl⟩
        | exact ⟨FragmentErrorBits.kUnassigned17, rfl⟩
        | exact ⟨FragmentErrorBits.kUnassigned18, rfl⟩
        | exact ⟨FragmentErrorBits.kUnassigned19, rfl⟩
        | exact ⟨FragmentErrorBits.kUnassigned20, rfl⟩
        | exact ⟨FragmentErrorBits.kUnassigned21, rfl⟩
        | exact ⟨FragmentErrorBits.kUnassigned22, rfl⟩
        | exact ⟨FragmentErrorBits.kUnassigned23, rfl⟩
        | exact ⟨FragmentErrorBits.kUnassigned24, rfl⟩
        | exact ⟨FragmentErrorBits.kUnassigned25, rfl⟩
        | exact ⟨FragmentErrorBits.kUnassigned26, rfl⟩
        | exact ⟨FragmentErrorBits.kUnassigned27, rfl⟩
        | exact ⟨FragmentErrorBits.kUnassigned28, rfl⟩
        | exact ⟨FragmentErrorBits.kUnassigned29, rfl⟩
        | exact ⟨FragmentErrorBits.kUnassigned30, rfl⟩
        | exact ⟨FragmentErrorBits.kUnassigned31, rfl⟩
  · intro a b hab
    cases a <;> cases b <;> first | rfl | exact absurd hab (by decide)
  · intro e he
    cases e <;> first | exact absurd rfl he | exact ⟨by decide, by decide⟩
  · intro p hp
    exact Nat.pow_lt_pow_right (by decide) hp

theorem get_error_bit_eq_testBit {GeoID : Type} (hdr : FragmentHeader GeoID) (p : Nat) :
    hdr.get_error_bit p = hdr.m_error_bits.testBit p := by
  unfold FragmentHeader.get_error_bit Nat.testBit
  rw [Nat.and_comm]

theorem set_error_bit_value {GeoID : Type} (hdr : FragmentHeader GeoID) (p : Nat)
    (hbits : hdr.m_error_bits < 2 ^ error_bits_width) (hp : p < error_bits_width) :
    (hdr.set_error_bit p).m_error_bits = hdr.m_error_bits ||| 2 ^ p := by
  unfold FragmentHeader.set_error_bit
  simp only [Nat.one_shiftLeft]
  exact Nat.mod_eq_of_lt
    (Nat.or_lt_two_pow hbits (Nat.pow_lt_pow_right (by decide) hp))

/-- C8: an unassigned error bit that is set is preserved and reported: for
every header (its `m_error_bits` a 32-bit value) and every bit position `p`
from 0 to 31, after `m_error_bits |= 1 << p` reading the member back has bit
`p` set and every previously set bit still set, nothing is masked out (the
stored value is the full `m_error_bits OR 2 ^ p`), and `operator<<` renders
the item "error_bits: " followed by the decimal value of that full mask. -/
theorem set_error_bit_preserved_and_reported {GeoID : Type} (f : GeoID → String) (o : ostream)
    (hdr : FragmentHeader GeoID) (p : Nat)
    (hbits : hdr.m_error_bits < 2 ^ error_bits_width) (hp : p < error_bits_width) :
    (hdr.set_error_bit p).get_error_bit p = true ∧
    (∀ q, hdr.get_error_bit q = true → (hdr.set_error_bit p).get_error_bit q = true) ∧
    (hdr.set_error_bit p).m_error_bits = hdr.m_error_bits ||| 2 ^ p ∧
    contains_text (operator_lshift f o (hdr.set_error_bit p)).buf
      ("error_bits: " ++ Nat.repr (hdr.m_error_bits ||| 2 ^ p) ++ ",") := by
  have hv := set_error_bit_value hdr p hbits hp
  refine ⟨?_, ?_, hv, ?_⟩
  · rw [get_error_bit_eq_testBit, hv, Nat.testBit_or, Nat.testBit_two_pow_self, Bool.or_true]
  · intro q hq
    rw [get_error_bit_eq_testBit] at hq
    rw [get_error_bit_eq_testBit, hv, Nat.testBit_or, hq, Bool.true_or]
  · rw [← hv, operator_lshift_buf]
    iterate 2 apply contains_text_append_right
    exact contains_text_item _ _ _

/-- C8 at bit 5: a default-constructed header has no error bit set; after bit
5 (unassigned) is set, reading it back gives bit 5 set, the mask is 32 and
the rendered text contains "error_bits: 32,". -/
theorem set_error_bit_preserved_and_reported_witness :
    ((FragmentHeader.default_constructed sample_defaults ()).set_error_bit 5).get_error_bit 5
      = true ∧
    ((FragmentHeader.default_constructed sample_defaults ()).set_error_bit 5).m_error_bits
      = 32 ∧
    contains_text
      (((FragmentHeader.default_constructed sample_defaults ()).set_error_bit 5).text
        sample_link_id_text)
      "error_bits: 32," :=
  have h := set_error_bit_preserved_and_reported sample_link_id_text ostringstream
    (FragmentHeader.default_constructed sample_defaults ()) 5 (by decide) (by decide)
  ⟨h.1, h.2.2.1, h.2.2.2⟩

theorem NameTable.entries_eq_of_same_contents (a b : NameTable)
    (h : ∀ e, e ∈ a.entries ↔ e ∈ b.entries) : a.entries = b.entries := by
  have nodup : ∀ t : NameTable, t.entries.Nodup := by
    intro t
    unfold List.Nodup
    refine List.Pairwise.imp ?_ t.ascending
    intro x y hlt heq
    rw [heq] at hlt
    exact Nat.lt_irrefl _ hlt
  haveI : IsAntisymm (FragmentType × String) (fun x y => x.1.val < y.1.val) :=
    ⟨fun _ _ h1 h2 => absurd h1 (Nat.lt_asymm h2)⟩
  exact List.eq_of_perm_of_sorted ((List.perm_ext_iff_of_nodup (nodup a) (nodup b)).mpr h)
    a.ascending b.ascending

/-- C9, counterexample: the sample table maps the duplicate name "TPC" to the
different tags 1 and 4, and the result for that name is determined: every
table with these contents gives tag 1, and the two tables that register the
duplicates in opposite orders both give tag 1. -/
theorem duplicate_names_result_is_determined :
    (((⟨1⟩, "TPC") : FragmentType × String) ∈ sample_names.entries ∧
      ((⟨4⟩, "TPC") : FragmentType × String) ∈ sample_names.entries) ∧
    (¬ ∃ tbl : NameTable, (∀ e, e ∈ tbl.entries ↔ e ∈ sample_names.entries) ∧
      string_to_fragment_type tbl "TPC" ≠ ⟨1⟩) ∧
    string_to_fragment_type registered_4_then_1 "TPC" = ⟨1⟩ ∧
    string_to_fragment_type registered_1_then_4 "TPC" = ⟨1⟩ := by
  refine ⟨by decide, ?_, by decide, by decide⟩
  rintro ⟨tbl, hsame, hne⟩
  apply hne
  unfold string_to_fragment_type
  rw [NameTable.entries_eq_of_same_contents tbl sample_names hsame]
  decide

/-- C9, amended: the result of `string_to_fragment_type` is determined by the
table's contents and the input name, duplicate names included: two tables
with the same entries give the same result for every input (a `std::map`
iterates in ascending key order, whatever the order of registration). -/
theorem string_to_fragment_type_determined_by_contents (tbl1 tbl2 : NameTable) (s : String)
    (hsame : ∀ e, e ∈ tbl1.entries ↔ e ∈ tbl2.entries) :
    string_to_fragment_type tbl1 s = string_to_fragment_type tbl2 s := by
  unfold string_to_fragment_type
  rw [NameTable.entries_eq_of_same_contents tbl1 tbl2 hsame]

/-- C9, amended, at two tables that register the duplicate name "TPC" for the
tags 4 and 1 in opposite orders: same contents, same result. -/
theorem string_to_fragment_type_determined_by_contents_witness :
    string_to_fragment_type registered_4_then_1 "tpc"
      = string_to_fragment_type registered_1_then_4 "tpc" :=
  string_to_fragment_type_determined_by_contents registered_4_then_1 registered_1_then_4 "tpc"
    (fun e => by
      rw [show registered_4_then_1.entries = registered_1_then_4.entries from by decide])

set_option maxRecDepth 100000 in
/-- C10, counterexample: the unit test's header has fragment type 7, which is
registered neither in the shipped (empty) table nor in the sample table, so
its name is "INVALID"; the text `operator<<` produces shows the item
"fragment_type : 7" and does not contain "INVALID". -/
theorem unregistered_fragment_type_renders_number :
    sample_header.m_fragment_type = 7 ∧
    (⟨7⟩ : FragmentType) ∉ s_fragment_type_names.keys ∧
    (⟨7⟩ : FragmentType) ∉ sample_names.keys ∧
    fragment_type_to_string sample_names ⟨7⟩ = Except.ok "INVALID" ∧
    sample_header.text sample_link_id_text =
      "check_word: 11112222, version: 1, size: 0, trigger_number: 1, run_number: 3, trigger_timestamp: 2, window_offset: 0, window_width: 0, link_id: GeoID, error_bits: 0, fragment_type : 7" ∧
    ¬ contains_text (sample_header.text sample_link_id_text) "INVALID" := by
  refine ⟨rfl, by decide, by decide, by decide, rfl, ?_⟩
  decide

/-- C10, amended: for every header whose fragment type is not registered in
the name table, the name of that type is "INVALID", and the text produced by
`operator<<` ends with the item "fragment_type : " followed by the decimal
value of `m_fragment_type`; the inserter does not consult the name table. -/
theorem unregistered_fragment_type_item (tbl : NameTable) {GeoID : Type} (f : GeoID → String)
    (o : ostream) (hdr : FragmentHeader GeoID)
    (hunreg : (⟨hdr.m_fragment_type⟩ : FragmentType) ∉ tbl.keys) :
    fragment_type_to_string tbl ⟨hdr.m_fragment_type⟩ = Except.ok "INVALID" ∧
    ∃ pre : String, (operator_lshift f o hdr).buf =
      pre ++ ", " ++ "fragment_type : " ++ Nat.repr hdr.m_fragment_type := by
  constructor
  · unfold fragment_type_to_string
    rw [if_pos ((tbl.count_eq_zero_iff _).mpr hunreg)]
  · exact ⟨_, operator_lshift_buf f o hdr⟩

/-- C10, amended, at the unit test's header and the sample table: type 7 is
not registered and the text ends ", fragment_type : 7". -/
theorem unregistered_fragment_type_item_witness :
    fragment_type_to_string sample_names ⟨sample_header.m_fragment_type⟩ = Except.ok "INVALID" ∧
    ∃ pre : String, (operator_lshift sample_link_id_text ostringstream sample_header).buf =
      pre ++ ", " ++ "fragment_type : " ++ Nat.repr sample_header.m_fragment_type :=
  unregistered_fragment_type_item sample_names sample_link_id_text ostringstream sample_header
    (by decide)

/-! ## Defaults, the shipped table, key order and round trip -/

/-- C12: every default-constructed FragmentHeader has `m_error_bits` equal to
0, and so every bit of it is unset: bit `p` for every position `p` (the
positions 0 to 31 of the member among them) and the bit of every
`FragmentErrorBits` enumerator. -/
theorem default_constructed_error_bits {GeoID : Type} (td : TypeDefaults) (g : GeoID) :
    (FragmentHeader.default_constructed td g).m_error_bits = 0 ∧
    (∀ p : Nat, (FragmentHeader.default_constructed td g).get_error_bit p = false) ∧
    (∀ e : FragmentErrorBits,
      (FragmentHeader.default_constructed td g).get_error_bit e.value = false) := by
  have h0 : (FragmentHeader.default_constructed td g).m_error_bits = 0 := rfl
  have hbit : ∀ p : Nat, (FragmentHeader.default_constructed td g).get_error_bit p = false := by
    intro p
    rw [get_error_bit_eq_testBit, h0, Nat.zero_testBit]
  exact ⟨h0, hbit, fun e => hbit e.value⟩

/-- C13: with the name table as the header ships it (empty),
`fragment_type_to_string` returns "INVALID" for every FragmentType value and
`string_to_fragment_type` returns `FragmentType::kInvalid` for every input
string. -/
theorem shipped_table_conversions (t : FragmentType) (s : String) :
    fragment_type_to_string s_fragment_type_names t = Except.ok "INVALID" ∧
    string_to_fragment_type s_fragment_type_names s = FragmentType.kInvalid :=
  ⟨rfl, rfl⟩

theorem string_to_fragment_type_loop_least (l : List (FragmentType × String)) (name : String)
    (hl : l.Pairwise (fun a b => a.1.val < b.1.val)) :
    ∀ e ∈ l, e.2 = name → (string_to_fragment_type_loop l name).val ≤ e.1.val := by
  induction l with
  | nil => intro e he; simp at he
  | cons x rest ih =>
    rw [List.pairwise_cons] at hl
    intro e he hname
    unfold string_to_fragment_type_loop
    by_cases hx : x.2 = name
    · rw [if_pos hx]
      rcases List.mem_cons.mp he with h0 | h1
      · rw [h0]
      · exact Nat.le_of_lt (hl.1 e h1)
    · rw [if_neg hx]
      rcases List.mem_cons.mp he with h0 | h1
      · exact absurd (h0 ▸ hname) hx
      · exact ih hl.2 e h1 hname

/-- C16: `string_to_fragment_type` resolves duplicate names by key order: for
every name table (a map ordered by FragmentType key) and every input `s`, if
at least one entry's name equals the uppercased `s`, the result is the key of
such an entry and it is the smallest key among those entries. The result is a
function of the table and the input. -/
theorem string_to_fragment_type_smallest_key (tbl : NameTable) (s : String)
    (hsome : ∃ e ∈ tbl.entries, e.2 = transform_toupper s) :
    (string_to_fragment_type tbl s, transform_toupper s) ∈ tbl.entries ∧
    ∀ e ∈ tbl.entries, e.2 = transform_toupper s →
      (string_to_fragment_type tbl s).val ≤ e.1.val :=
  ⟨string_to_fragment_type_loop_mem tbl.entries _ hsome,
   string_to_fragment_type_loop_least tbl.entries _ tbl.ascending⟩

/-- C16 at the sample table: "tpc" names the entries with keys 1 and 4; the
result is key 1, an entry named "TPC", and it is below key 4. -/
theorem string_to_fragment_type_smallest_key_witness :
    (string_to_fragment_type sample_names "tpc", transform_toupper "tpc")
      ∈ sample_names.entries ∧
    (string_to_fragment_type sample_names "tpc").val ≤ (⟨4⟩ : FragmentType).val ∧
    string_to_fragment_type sample_names "tpc" = ⟨1⟩ :=
  have h := string_to_fragment_type_smallest_key sample_names "tpc"
    ⟨(⟨4⟩, "TPC"), by decide, by decide⟩
  ⟨h.1, h.2 (⟨4⟩, "TPC") (by decide) (by decide), by decide⟩

/-- C17: for every name table whose names are all uppercase (unchanged by
character-wise `toupper`) and pairwise distinct, and every tag `t` that is a
key of the table, `fragment_type_to_string(t)` returns a name and
`string_to_fragment_type` of that name is `t`. -/
theorem string_to_fragment_type_of_fragment_type_to_string (tbl : NameTable) (t : FragmentType)
    (hupper : ∀ e ∈ tbl.entries, transform_toupper e.2 = e.2)
    (hdistinct : ∀ a ∈ tbl.entries, ∀ b ∈ tbl.entries, a.2 = b.2 → a = b)
    (hkey : t ∈ tbl.keys) :
    ∃ n, fragment_type_to_string tbl t = Except.ok n ∧ string_to_fragment_type tbl n = t := by
  obtain ⟨e, he, rfl⟩ := List.mem_map.mp hkey
  refine ⟨e.2, ?_, ?_⟩
  · unfold fragment_type_to_string
    rw [if_neg (fun h0 => (tbl.count_eq_zero_iff _).mp h0 hkey)]
    exact tbl.at_of_mem e.1 e.2 he
  · have hmem : (string_to_fragment_type tbl e.2, e.2) ∈ tbl.entries := by
      unfold string_to_fragment_type
      rw [hupper e he]
      exact string_to_fragment_type_loop_mem tbl.entries e.2 ⟨e, he, rfl⟩
    have heq := hdistinct _ hmem e he rfl
    exact congrArg Prod.fst heq

/-- C17 at a table with distinct uppercase names: tag 5 goes to "TRIGGER" and
back to tag 5. -/
theorem string_to_fragment_type_of_fragment_type_to_string_witness :
    ∃ n, fragment_type_to_string distinct_names ⟨5⟩ = Except.ok n ∧
      string_to_fragment_type distinct_names n = ⟨5⟩ :=
  string_to_fragment_type_of_fragment_type_to_string distinct_names ⟨5⟩
    (by decide) (by decide) (by decide)

/-! ## Number bases of the inserter -/

theorem signed_text_dec (i : Int) : signed_text Basefield.dec i = Int.repr i := by
  cases i with
  | ofNat m =>
    have h : ¬ (Int.ofNat m < 0) := Int.not_lt.mpr (Int.ofNat_nonneg m)
    simp only [signed_text, if_neg h, Int.natAbs_ofNat, Int.repr]
    rfl
  | negSucc m =>
    have h : Int.negSucc m < 0 := Int.negSucc_lt_zero m
    simp only [signed_text, if_pos h, Int.repr]
    rfl

theorem digitChar_mem_hex (k : Nat) (hk : k < 16) : Nat.digitChar k ∈ hex_digit_chars := by
  interval_cases k <;> decide

theorem toDigitsCore_hex (fuel : Nat) :
    ∀ (n : Nat) (ds : List Char), (∀ c ∈ ds, c ∈ hex_digit_chars) →
      ∀ c ∈ Nat.toDigitsCore 16 fuel n ds, c ∈ hex_digit_chars := by
  induction fuel with
  | zero => intro n ds hds c hc; exact hds c hc
  | succ fuel ih =>
    intro n ds hds c hc
    have hcons : ∀ x ∈ Nat.digitChar (n % 16) :: ds, x ∈ hex_digit_chars := by
      intro x hx
      rcases List.mem_cons.mp hx with h0 | h1
      · rw [h0]
        exact digitChar_mem_hex _ (Nat.mod_lt _ (by decide))
      · exact hds x h1
    unfold Nat.toDigitsCore at hc
    by_cases hz : n / 16 = 0
    · simp only [hz, if_true] at hc
      exact hcons c hc
    · simp only [hz, if_false] at hc
      exact ih _ _ hcons c hc

theorem starts_with_append (x z p : String) (h : ∃ r : String, x = p ++ r) :
    ∃ r : String, x ++ z = p ++ r := by
  obtain ⟨r, hr⟩ := h
  exact ⟨r ++ z, by rw [hr, String.append_assoc]⟩

/-- C14: `operator<<` renders the marker in hexadecimal and only the marker:
for every header and stream the appended text begins with the marker item,
whose value is the base-16 rendering of `m_fragment_header_marker` made of the
characters 0-9 and a-f only (no prefix, no uppercase), and the version, size,
trigger_number, run_number, trigger_timestamp, window_offset, window_width,
error_bits and fragment_type values are the base-10 renderings. A
default-constructed header renders "check_word: 11112222, version: 1, " first;
a header holding 255 everywhere renders "ff" for the marker and "255" for the
other members. -/
theorem operator_lshift_marker_hex_rest_decimal {GeoID : Type} (f : GeoID → String)
    (o : ostream) (hdr : FragmentHeader GeoID) (td : TypeDefaults) (g : GeoID) :
    (operator_lshift f o hdr).buf =
      o.buf ++ "check_word: " ++ String.mk (Nat.toDigits 16 hdr.m_fragment_header_marker) ++ ", "
        ++ "version: " ++ String.mk (Nat.toDigits 10 hdr.m_version) ++ ", "
        ++ "size: " ++ String.mk (Nat.toDigits 10 hdr.m_size) ++ ", "
        ++ "trigger_number: " ++ String.mk (Nat.toDigits 10 hdr.m_trigger_number) ++ ", "
        ++ "run_number: " ++ String.mk (Nat.toDigits 10 hdr.m_run_number) ++ ", "
        ++ "trigger_timestamp: " ++ String.mk (Nat.toDigits 10 hdr.m_trigger_timestamp) ++ ", "
        ++ "window_offset: " ++ Int.repr hdr.m_window_offset ++ ", "
        ++ "window_width: " ++ Int.repr hdr.m_window_width ++ ", "
        ++ "link_id: " ++ f hdr.m_link_id ++ ", "
        ++ "error_bits: " ++ String.mk (Nat.toDigits 10 hdr.m_error_bits) ++ ", "
        ++ "fragment_type : " ++ String.mk (Nat.toDigits 10 hdr.m_fragment_type) ∧
    (∀ c ∈ Nat.toDigits 16 hdr.m_fragment_header_marker, c ∈ hex_digit_chars) ∧
    (operator_lshift f o hdr).basefield = Basefield.dec ∧
    (∃ rest : String, (FragmentHeader.default_constructed td g).text f =
      "check_word: 11112222, version: 1, " ++ rest) ∧
    all_255_header.text sample_link_id_text =
      "check_word: ff, version: 255, size: 255, trigger_number: 255, run_number: 255, trigger_timestamp: 255, window_offset: -255, window_width: 255, link_id: GeoID, error_bits: 255, fragment_type : 255" := by
  refine ⟨?_, ?_, rfl, ?_, rfl⟩
  · rw [operator_lshift_buf, signed_text_dec, signed_text_dec]
    rfl
  · exact toDigitsCore_hex _ _ [] (fun c hc => absurd hc (List.not_mem_nil c))
  · have ht : (FragmentHeader.default_constructed td g).text f
        = (operator_lshift f ostringstream (FragmentHeader.default_constructed td g)).buf := rfl
    have em : (FragmentHeader.default_constructed td g).m_fragment_header_marker
        = 0x11112222 := rfl
    have ev : (FragmentHeader.default_constructed td g).m_version = 1 := rfl
    rw [ht, operator_lshift_buf, em, ev]
    iterate 26 apply starts_with_append
    exact ⟨"", by decide⟩

/-! ## Case folding -/

theorem toupper_idempotent (c : Char) : toupper (toupper c) = toupper c := by
  unfold toupper
  by_cases h : 'a' ≤ c ∧ c ≤ 'z'
  · rw [if_pos h]
    have h1 : 97 ≤ c.toNat := by
      have := h.1
      rw [Char.le_def] at this
      exact this
    have h2 : c.toNat ≤ 122 := by
      have := h.2
      rw [Char.le_def] at this
      exact this
    generalize c.toNat = n at h1 h2
    rw [if_neg]
    interval_cases n <;> decide
  · rw [if_neg h, if_neg h]

theorem transform_toupper_idempotent (s : String) :
    transform_toupper (transform_toupper s) = transform_toupper s := by
  unfold transform_toupper
  simp only [List.map_map]
  congr 1
  apply List.map_congr_left
  intro c _
  exact toupper_idempotent c

/-- C18: `string_to_fragment_type` depends on its input only through the
uppercased input: for every name table and all strings `s1`, `s2` whose
character-wise `toupper` images are equal the results are equal, and the
result for `s1` is the result for the uppercased `s1`. -/
theorem string_to_fragment_type_through_uppercase (tbl : NameTable) (s1 s2 : String)
    (hsame : s1.data.map toupper = s2.data.map toupper) :
    string_to_fragment_type tbl s1 = string_to_fragment_type tbl s2 ∧
    string_to_fragment_type tbl s1 = string_to_fragment_type tbl (transform_toupper s1) := by
  constructor
  · unfold string_to_fragment_type transform_toupper
    rw [hsame]
  · unfold string_to_fragment_type
    rw [transform_toupper_idempotent]

/-- C18 at the sample table: "pds" and "PdS" have the same uppercase image and
give the same tag, which is also the tag of "PDS". -/
theorem string_to_fragment_type_through_uppercase_witness :
    string_to_fragment_type sample_names "pds" = string_to_fragment_type sample_names "PdS" ∧
    string_to_fragment_type sample_names "pds"
      = string_to_fragment_type sample_names (transform_toupper "pds") :=
  string_to_fragment_type_through_uppercase sample_names "pds" "PdS" (by decide)

end dataformats
end dunedaq
